import Mathlib

/-!
Verification of the selection-and-merge logic of `src/copylot/build_pylot.py`,
a generator that assembles a `copilot-instructions.md` file from two base
documents and a user-selected subset of module documents.

The Python functions are shallowly embedded as pure Lean functions:
* filesystem reads are passed in explicitly (`readMod : String → String`
  models `read_markdown_file` on the modules directory, returning `""` for a
  missing file, as the source does);
* the modules directory is modelled as `Option (List FileEntry)` (`none` when
  the directory is absent or not a directory);
* standard input is modelled as a list of input lines consumed by the
  recursive text prompt;
* the interactive `questionary.checkbox(...).ask()` call is modelled by its
  outcome, `Except String (Option (List String))`: either an exception was
  raised, or it returned `None` or a list of selected names;
* the output directory state touched by `save_instructions` is the pair of
  optional file contents at `copilot-instructions.md` and
  `copilot-instructions.md.bak`.

Python string primitives used by the source (`str.strip`, `str.lower`,
`str.split(',')`, `int(...)`) are implemented below by structural recursion
over `List Char`, restricted to the ASCII character set (Python additionally
handles non-ASCII whitespace, case, and digits, which never arise here).
-/

namespace CoPylot

/-- ASCII whitespace, as stripped by Python `str.strip()`. -/
def isPySpace (c : Char) : Bool :=
  c = ' ' || c = '\t' || c = '\n' || c = '\r' || c = '\x0b' || c = '\x0c'

/-- Strip leading and trailing whitespace from a character list
(Python `str.strip()` on ASCII text). -/
def stripChars (l : List Char) : List Char :=
  ((l.dropWhile isPySpace).reverse.dropWhile isPySpace).reverse

/-- Python `str.strip()`. -/
def pyStrip (s : String) : String :=
  ⟨stripChars s.data⟩

/-- Lowercase one ASCII character (Python `str.lower()` per character). -/
def lowerChar (c : Char) : Char :=
  if 65 ≤ c.toNat ∧ c.toNat ≤ 90 then Char.ofNat (c.toNat + 32) else c

/-- Python `str.lower()` on ASCII text. -/
def pyLower (s : String) : String :=
  ⟨s.data.map lowerChar⟩

/-- Python `str.split(',')`: split on every comma, keeping empty chunks;
the empty string yields one empty chunk. -/
def splitOnComma : List Char → List (List Char)
  | [] => [[]]
  | c :: rest =>
    match splitOnComma rest with
    | [] => [[c]]
    | t :: ts => if c = ',' then [] :: t :: ts else (c :: t) :: ts

/-- Value of an ASCII digit, `none` for a non-digit. -/
def digitVal (c : Char) : Option Nat :=
  if 48 ≤ c.toNat ∧ c.toNat ≤ 57 then some (c.toNat - 48) else none

/-- Digits of an integer literal after the first digit; Python `int(...)`
allows a single underscore between digits. -/
def parseUDigits : List Char → Nat → Option Nat
  | [], acc => some acc
  | '_' :: c :: rest, acc =>
    match digitVal c with
    | some d => parseUDigits rest (acc * 10 + d)
    | none => none
  | ['_'], _ => none
  | c :: rest, acc =>
    match digitVal c with
    | some d => parseUDigits rest (acc * 10 + d)
    | none => none

/-- Magnitude part of a Python integer literal: a first digit followed by
digits with optional single underscores between them. -/
def parseBody (l : List Char) : Option Nat :=
  match l with
  | [] => none
  | c :: rest =>
    match digitVal c with
    | some d => parseUDigits rest d
    | none => none

/-- Python `int(token)` on an already-stripped ASCII token: optional sign,
then digits; `none` models the `ValueError` raised on anything else. -/
def pyIntChars (l : List Char) : Option Int :=
  match l with
  | '+' :: rest => (parseBody rest).map Int.ofNat
  | '-' :: rest => (parseBody rest).map (fun n => -(n : Int))
  | rest => (parseBody rest).map Int.ofNat

/-- `[int(idx.strip()) for idx in selection.split(',') if idx.strip()]`:
split the line on commas, strip each token, drop tokens that are empty after
stripping, and parse the rest as integers; `none` models the `ValueError`
raised as soon as one token fails to parse. -/
def parseIndexTokens (selection : String) : Option (List Int) :=
  (((splitOnComma selection.data).map stripChars).filter (fun t => t ≠ [])).mapM pyIntChars

/-- `[available_mods[idx - 1] for idx in selected_indices if 1 <= idx <= len(available_mods)]`:
keep the 1-based indices in range and look each one up. -/
def selectByIndices (availableMods : List String) (selectedIndices : List Int) : List String :=
  (selectedIndices.filter (fun idx => decide (1 ≤ idx ∧ idx ≤ (availableMods.length : Int)))).filterMap
    (fun idx => availableMods.get? (idx - 1).toNat)

/-- One pass of `fallback_select` over a single input line (everything after
`input()`): strip and lowercase the line, handle the literals `all` and
`none`, otherwise parse comma-separated indices; `none` is the `ValueError`
path that prints an error and re-prompts. -/
def fallbackParse (availableMods : List String) (line : String) : Option (List String) :=
  let selection := pyLower (pyStrip line)
  if selection = "all" then some availableMods
  else if selection = "none" then some []
  else
    match parseIndexTokens selection with
    | none => none
    | some selectedIndices => some (selectByIndices availableMods selectedIndices)

/-- `fallback_select`, with standard input modelled as a list of lines: an
empty catalog returns `[]` before any prompt; a parse failure recurses on the
remaining lines (the re-prompt); `none` means the input lines were exhausted
while the source would still be prompting. -/
def fallbackSelect (availableMods : List String) : List String → Option (List String)
  | [] => if availableMods.isEmpty then some [] else none
  | line :: rest =>
    if availableMods.isEmpty then some []
    else
      match fallbackParse availableMods line with
      | some sel => some sel
      | none => fallbackSelect availableMods rest

/-- `interactive_select`: an empty catalog returns `[]` before prompting;
otherwise `questionary.checkbox(...).ask()` either raises (`Except.error`),
which is caught and answered by `fallback_select`, or returns an answer
`selected`, in which case `selected or []` is returned. -/
def interactiveSelect (availableMods : List String)
    (askResult : Except String (Option (List String)))
    (fallbackInputs : List String) : Option (List String) :=
  if availableMods.isEmpty then some []
  else
    match askResult with
    | Except.ok selected => some (selected.getD [])
    | Except.error _ => fallbackSelect availableMods fallbackInputs

/-- A directory entry seen by `mods_dir.glob("*.md")`: a name and whether it
is a regular file. -/
structure FileEntry where
  name : String
  isFile : Bool

/-- Whether a filename matches the glob pattern `*.md`: any name ending in
`.md`; `pathlib.Path.glob` does not special-case hidden (dot-leading) names,
so they match too. -/
def hasMdExt (name : String) : Bool :=
  match name.data.reverse with
  | 'd' :: 'm' :: '.' :: _ => true
  | _ => false

/-- `Path.stem` of a name that matched `*.md`: the name without its final
`.md` suffix, except that a leading dot never begins a suffix in `pathlib`,
so the name `".md"` is its own stem. -/
def fileStem (name : String) : String :=
  if name = ".md" then name else ⟨(name.data.reverse.drop 3).reverse⟩

/-- The glob-plus-`is_file` test applied to each directory entry. -/
def entryMatches (f : FileEntry) : Bool :=
  hasMdExt f.name && f.isFile

/-- `get_available_mods`: `none` models a `mods_dir` that does not exist or
is not a directory, on which the source prints an error and calls
`sys.exit(1)`; otherwise collect the stems of the matching regular files and
return them sorted (Python `sorted`, lexicographic on strings). -/
def getAvailableMods (modsDir : Option (List FileEntry)) : Except Nat (List String) :=
  match modsDir with
  | none => Except.error 1
  | some entries =>
    let availableMods := (entries.filter entryMatches).map (fun f => fileStem f.name)
    Except.ok (availableMods.mergeSort (fun a b => decide (a ≤ b)))

/-- The body appended for one selected module inside the loop of
`generate_instructions`: nothing when the file read back empty, otherwise the
content followed by a blank separator line. -/
def moduleBlock (readMod : String → String) (mod : String) : String :=
  let libContent := readMod mod
  if libContent = "" then "" else libContent ++ "\n\n"

/-- `generate_instructions`: base universal content, blank line, core
content, newline; when the selection is non-empty, the fixed section header
and then, for each selected module in the order of the selection list, its
block. `readMod` models `read_markdown_file(mods_dir / f"{mod}.md")`. -/
def generateInstructions (universalContent pyCoreContent : String)
    (readMod : String → String) (selectedMods : List String) : String :=
  let combinedContent := universalContent ++ "\n\n" ++ pyCoreContent ++ "\n"
  if selectedMods.isEmpty then combinedContent
  else
    selectedMods.foldl
      (fun acc mod =>
        let libContent := readMod mod
        if libContent = "" then acc else acc ++ libContent ++ "\n\n")
      (combinedContent ++ "\n## Library-Specific Instructions\n\n")

/-- State of the output directory as touched by `save_instructions`: the
contents (if any) of `copilot-instructions.md` and of
`copilot-instructions.md.bak`. -/
structure OutputDir where
  outputFile : Option String
  backupFile : Option String

/-- `save_instructions`: if the output file exists, copy it over the backup
path first; then write the new content over the output path. -/
def saveInstructions (content : String) (dir : OutputDir) : OutputDir :=
  match dir.outputFile with
  | some existing => ⟨some content, some existing⟩
  | none => ⟨some content, dir.backupFile⟩

/-- The fixed markdown section header of the library-specific section. -/
def sectionHeader : String := "## Library-Specific Instructions"

/-- Concatenation of the blocks of a list of modules, in list order; this is
what the loop of `generate_instructions` appends after the section header. -/
def emitMods (readMod : String → String) : List String → String
  | [] => ""
  | m :: rest => moduleBlock readMod m ++ emitMods readMod rest

/-- Concatenation of `content ++ "\n\n"` for every module of a list, with no
skipping (used to state that skipping only removes empty-content modules). -/
def emitAllMods (readMod : String → String) : List String → String
  | [] => ""
  | m :: rest => readMod m ++ "\n\n" ++ emitAllMods readMod rest

/-- Whether `pat` occurs at the start of `text`. -/
def beginsWith : List Char → List Char → Bool
  | [], _ => true
  | _ :: _, [] => false
  | p :: ps, t :: ts => p = t && beginsWith ps ts

/-- Whether `pat` occurs as a contiguous substring of `text`. -/
def occursIn (pat : List Char) : List Char → Bool
  | [] => pat.isEmpty
  | t :: ts => beginsWith pat (t :: ts) || occursIn pat ts

/-- Number of positions of `text` at which `pat` occurs. -/
def countOccur (pat : List Char) : List Char → Nat
  | [] => 0
  | t :: ts => (if beginsWith pat (t :: ts) then 1 else 0) + countOccur pat ts

end CoPylot

namespace CoPylot

/-- The loop of `generate_instructions` appends exactly the concatenation of
the selected modules' blocks, in list order, to its accumulator. -/
theorem foldl_emitMods (readMod : String → String) (sel : List String) (acc : String) :
    sel.foldl
      (fun acc mod =>
        let libContent := readMod mod
        if libContent = "" then acc else acc ++ libContent ++ "\n\n") acc
      = acc ++ emitMods readMod sel := by
  induction sel generalizing acc with
  | nil => exact (String.append_empty acc).symm
  | cons m rest ih =>
    simp only [List.foldl_cons]
    rw [ih]
    simp only [emitMods, moduleBlock]
    by_cases h : readMod m = ""
    · simp [h, String.empty_append]
    · simp [h, String.append_assoc]

/-- Closed form of `generate_instructions`: the base block alone when the
selection is empty, otherwise the base block, the section header, and the
modules' blocks in selection order. -/
theorem generateInstructions_eq (u c : String) (readMod : String → String)
    (sel : List String) :
    generateInstructions u c readMod sel =
      if sel.isEmpty then u ++ "\n\n" ++ c ++ "\n"
      else (u ++ "\n\n" ++ c ++ "\n") ++
        ("\n## Library-Specific Instructions\n\n" ++ emitMods readMod sel) := by
  unfold generateInstructions
  cases sel with
  | nil => rfl
  | cons m rest =>
    simp only [List.isEmpty_cons, if_neg Bool.false_ne_true]
    rw [foldl_emitMods, String.append_assoc]

/-- Skipping the modules whose content read back empty is the same as
emitting `content ++ "\n\n"` for exactly the modules with non-empty
content. -/
theorem emitMods_eq_emitAllMods_filter (readMod : String → String) (sel : List String) :
    emitMods readMod sel = emitAllMods readMod (sel.filter (fun m => readMod m != "")) := by
  induction sel with
  | nil => rfl
  | cons m rest ih =>
    by_cases h : readMod m = ""
    · simp [emitMods, moduleBlock, h, List.filter_cons, ih, String.empty_append]
    · simp [emitMods, moduleBlock, h, List.filter_cons, ih, emitAllMods,
        String.append_assoc, bne_iff_ne]

/-- `mergeSort` with the decidable linear order on `String` produces a list
sorted by `≤`. -/
theorem sorted_le_mergeSort (l : List String) :
    (l.mergeSort (fun a b => decide (a ≤ b))).Sorted (· ≤ ·) := by
  have h := @List.sorted_mergeSort String (fun a b : String => decide (a ≤ b))
    (fun a b c hab hbc => by
      simp only [decide_eq_true_eq] at *
      exact le_trans hab hbc)
    (fun a b => by
      simp only [Bool.or_eq_true, decide_eq_true_eq]
      exact le_total a b) l
  exact h.imp (fun hab => of_decide_eq_true hab)

end CoPylot

namespace CoPylot

/-- Claim C1 is false on the code at a concrete input: against the catalog
`["alpha", "beta", "gamma"]`, text-selector input `"3,1"` selects
`["gamma", "alpha"]`, and `generate_instructions` emits the two contents in
that selection order — `gamma` before `alpha` — not in the catalog (sorted)
order the claim states. -/
theorem catalog_order_counterexample :
    fallbackSelect ["alpha", "beta", "gamma"] ["3,1"] = some ["gamma", "alpha"] ∧
    generateInstructions "U" "C" (fun m => "content-" ++ m) ["gamma", "alpha"] =
      "U\n\nC\n\n## Library-Specific Instructions\n\ncontent-gamma\n\ncontent-alpha\n\n" ∧
    generateInstructions "U" "C" (fun m => "content-" ++ m) ["gamma", "alpha"] ≠
      "U\n\nC\n\n## Library-Specific Instructions\n\ncontent-alpha\n\ncontent-gamma\n\n" :=
  ⟨by decide, by decide, by decide⟩

/-- Claim C1 amended: `generate_instructions` emits the selected modules'
blocks in the order of the selection list it receives (for a non-empty
selection: base block, then the fixed section header, then the blocks in
selection-list order), not in catalog order. -/
theorem emission_follows_selection_order (u c : String) (readMod : String → String)
    (sel : List String) :
    generateInstructions u c readMod sel =
      if sel.isEmpty then u ++ "\n\n" ++ c ++ "\n"
      else (u ++ "\n\n" ++ c ++ "\n") ++
        ("\n## Library-Specific Instructions\n\n" ++ emitMods readMod sel) :=
  generateInstructions_eq u c readMod sel

/-- Claim C2 is false on the code at a concrete input: text-selector input
`"1,1"` against the catalog `["alpha"]` yields the module twice, and
`generate_instructions` emits its content block twice, so the content does
not appear at most once. -/
theorem duplicate_selection_counterexample :
    fallbackSelect ["alpha"] ["1,1"] = some ["alpha", "alpha"] ∧
    generateInstructions "U" "C" (fun _ => "A") ["alpha", "alpha"] =
      "U\n\nC\n\n## Library-Specific Instructions\n\nA\n\nA\n\n" ∧
    countOccur "A\n\n".data
      ("U\n\nC\n\n## Library-Specific Instructions\n\nA\n\nA\n\n").data = 2 :=
  ⟨by decide, by decide, by decide⟩

/-- Claim C2 amended: the selection is not deduplicated — the text selector
keeps every occurrence of a repeated index (`"1,1"` yields the first module
twice), and `generate_instructions` emits a module's content once per
occurrence in the selection list. -/
theorem duplicate_selection_emits_once_per_occurrence (u c m : String)
    (readMod : String → String) (h : readMod m ≠ "") :
    (∀ a : String, fallbackSelect [a] ["1,1"] = some [a, a]) ∧
    generateInstructions u c readMod [m, m] =
      (u ++ "\n\n" ++ c ++ "\n") ++
        ("\n## Library-Specific Instructions\n\n" ++
          (readMod m ++ "\n\n" ++ (readMod m ++ "\n\n"))) := by
  constructor
  · intro a
    rfl
  · rw [generateInstructions_eq]
    simp [emitMods, moduleBlock, h, String.append_assoc, String.append_empty]

/-- Witness for the amended claim C2 at a concrete input. -/
theorem duplicate_selection_emits_once_per_occurrence_witness :
    fallbackSelect ["first"] ["1,1"] = some ["first", "first"] ∧
    generateInstructions "U" "Q" (fun _ => "B") ["m", "m"] =
      "U\n\nQ\n\n## Library-Specific Instructions\n\nB\n\nB\n\n" := by
  have h := duplicate_selection_emits_once_per_occurrence "U" "Q" "m" (fun _ => "B")
    (by decide)
  exact ⟨h.1 "first", h.2.trans (by decide)⟩

/-- Claim C3: text-selector parsing — `"all"` returns the whole available
list, `"none"` the empty list; `"1,3"` against a 3-item catalog returns
items 1 and 3; `"5"` against a 3-item catalog returns the empty list (the
out-of-range index is silently discarded, with no index error); `"abc"`
consumes the line and re-prompts on the remaining input. -/
theorem fallback_parsing_spec :
    (∀ avail : List String, fallbackSelect avail ["all"] = some avail) ∧
    (∀ avail : List String, fallbackSelect avail ["none"] = some []) ∧
    (∀ a b c : String, fallbackSelect [a, b, c] ["1,3"] = some [a, c]) ∧
    (∀ a b c : String, fallbackSelect [a, b, c] ["5"] = some []) ∧
    (∀ (avail rest : List String), avail ≠ [] →
      fallbackSelect avail ("abc" :: rest) = fallbackSelect avail rest) := by
  refine ⟨?_, ?_, fun a b c => rfl, fun a b c => rfl, ?_⟩
  · intro avail
    cases avail with
    | nil => rfl
    | cons a t => rfl
  · intro avail
    cases avail with
    | nil => rfl
    | cons a t => rfl
  · intro avail rest h
    cases avail with
    | nil => exact absurd rfl h
    | cons a t => rfl

/-- Witness for claim C3 at a concrete input: against the catalog
`["m1", "m2"]`, the invalid line `"abc"` is consumed and selection continues
with the next line. -/
theorem fallback_parsing_spec_witness :
    fallbackSelect ["m1", "m2"] ["abc", "none"] = fallbackSelect ["m1", "m2"] ["none"] :=
  fallback_parsing_spec.2.2.2.2 ["m1", "m2"] ["none"] (by decide)

/-- Claim C4: for every selection (including the empty one) and all base and
module contents, the assembled output begins with the universal content, a
blank line, the core content, and a newline, in that fixed order. -/
theorem output_begins_with_base (u c : String) (readMod : String → String)
    (sel : List String) :
    ∃ rest : String,
      generateInstructions u c readMod sel = (u ++ "\n\n" ++ c ++ "\n") ++ rest := by
  rw [generateInstructions_eq]
  cases sel with
  | nil => exact ⟨"", by simp [String.append_empty]⟩
  | cons m t =>
    exact ⟨"\n## Library-Specific Instructions\n\n" ++ emitMods readMod (m :: t), by simp⟩

/-- Claim C5: when the selection is empty the assembled output is just the
base block, so the section header does not occur in it (as long as it does
not already occur in the base contents); and modules whose content reads
back empty are skipped — for a non-empty selection the output is the base
block, the section header, and exactly one `content ++ "\n\n"` block per
module with non-empty content, with no per-module header or placeholder. -/
theorem empty_selection_no_header_and_empty_mods_skipped (u c : String)
    (readMod : String → String) (sel : List String)
    (hbase : occursIn sectionHeader.data (u ++ "\n\n" ++ c ++ "\n").data = false) :
    (sel = [] →
      occursIn sectionHeader.data (generateInstructions u c readMod sel).data = false) ∧
    (sel ≠ [] → generateInstructions u c readMod sel =
      (u ++ "\n\n" ++ c ++ "\n") ++
        ("\n## Library-Specific Instructions\n\n" ++
          emitAllMods readMod (sel.filter (fun m => readMod m != "")))) := by
  constructor
  · intro hsel
    subst hsel
    rw [generateInstructions_eq]
    simpa using hbase
  · intro hsel
    rw [generateInstructions_eq, emitMods_eq_emitAllMods_filter]
    cases sel with
    | nil => exact absurd rfl hsel
    | cons m t => simp

/-- Witness for claim C5 at concrete inputs: an empty selection over base
contents free of the header yields header-free output, and a selection with
one empty-content module and one non-empty one emits only the latter. -/
theorem empty_selection_no_header_witness :
    occursIn sectionHeader.data (generateInstructions "U" "C" (fun _ => "") []).data
      = false ∧
    generateInstructions "X" "Y" (fun m => if m = "keep" then "K" else "")
        ["skip", "keep"] =
      "X\n\nY\n\n## Library-Specific Instructions\n\nK\n\n" := by
  have h1 := empty_selection_no_header_and_empty_mods_skipped "U" "C" (fun _ => "") []
    (by decide)
  have h2 := empty_selection_no_header_and_empty_mods_skipped "X" "Y"
    (fun m => if m = "keep" then "K" else "") ["skip", "keep"] (by decide)
  exact ⟨h1.1 rfl, (h2.2 (by decide)).trans (by decide)⟩

/-- Claim C6: saving when no output file exists produces no backup; a second
save copies the first save's content to the backup and fully replaces the
output; a third save overwrites the backup, so exactly one backup generation
is kept. -/
theorem writer_backup_round_trip (c1 c2 c3 : String) :
    (saveInstructions c1 ⟨none, none⟩).backupFile = none ∧
    (saveInstructions c1 ⟨none, none⟩).outputFile = some c1 ∧
    (saveInstructions c2 (saveInstructions c1 ⟨none, none⟩)).backupFile = some c1 ∧
    (saveInstructions c2 (saveInstructions c1 ⟨none, none⟩)).outputFile = some c2 ∧
    (saveInstructions c3
        (saveInstructions c2 (saveInstructions c1 ⟨none, none⟩))).backupFile = some c2 :=
  ⟨rfl, rfl, rfl, rfl, rfl⟩

/-- Claim C7: `get_available_mods` fails with exit status 1 (non-zero) when
the directory is missing or not a directory; an existing empty directory
yields the empty list; and for any directory it returns a list that is
sorted by the lexicographic order on strings and is a permutation of the
stems of the regular `.md` files directly inside the directory. -/
theorem catalog_sorted_and_fatal_on_missing (entries : List FileEntry) :
    getAvailableMods none = Except.error 1 ∧ (1 : Nat) ≠ 0 ∧
    getAvailableMods (some []) = Except.ok ([] : List String) ∧
    ∃ l : List String, getAvailableMods (some entries) = Except.ok l ∧
      l.Sorted (· ≤ ·) ∧
      l.Perm ((entries.filter entryMatches).map (fun f => fileStem f.name)) := by
  refine ⟨rfl, by decide, ?_, ?_⟩
  · simp [getAvailableMods, List.mergeSort_nil]
  · refine ⟨((entries.filter entryMatches).map (fun f => fileStem f.name)).mergeSort
        (fun a b => decide (a ≤ b)), ?_, sorted_le_mergeSort _, List.mergeSort_perm _ _⟩
    rfl

/-- Claim C8: when the interactive prompting operation raises, the error is
caught and `interactive_select` returns exactly what the text-selection
strategy returns on the same catalog and input; no error escapes. -/
theorem interactive_error_falls_back (avail : List String) (e : String)
    (inputs : List String) :
    interactiveSelect avail (Except.error e) inputs = fallbackSelect avail inputs := by
  cases avail with
  | nil => cases inputs <;> rfl
  | cons a t => rfl

/-- Claim C9: in the text selector, an empty or whitespace-only input line
returns the empty selection from that single line (no re-prompt), and empty
tokens inside a comma-separated list are ignored rather than causing a
re-prompt. -/
theorem blank_input_and_empty_tokens (avail : List String) (a b : String) :
    fallbackSelect avail [""] = some [] ∧
    fallbackSelect avail ["   "] = some [] ∧
    fallbackSelect [a, b] ["1,,2"] = some [a, b] := by
  refine ⟨?_, ?_, rfl⟩
  · cases avail with
    | nil => rfl
    | cons x t => rfl
  · cases avail with
    | nil => rfl
    | cons x t => rfl

/-- Claim C10: when the interactive checklist completes without raising but
returns a null answer, `interactive_select` returns the empty selection, so
the result is always a list of module names. -/
theorem null_answer_yields_empty_selection (avail inputs : List String) :
    interactiveSelect avail (Except.ok none) inputs = some [] := by
  cases avail with
  | nil => rfl
  | cons a t => rfl

end CoPylot
